import Mathlib

/-!
Verification of the statistical pipeline in `src/lenis_ukraine_inflation.py`.

The script extracts the column `UA` from a loaded table, drops its missing
values, computes descriptive statistics (mean, median, sample standard
deviation, min, max, range), 12-month rolling mean and rolling standard
deviation, and exports a nine-row summary table plus a three-column
time-series table.

Embedding choices:
* numbers are rationals (`ℚ`); floating point round-off is not modelled,
  the claims are about exact windowed recomputation;
* a missing value / NaN is `none` in an `Option ℚ`;
* the numeric square root (used only inside the standard deviation) is an
  abstract parameter `sq : ℚ → ℚ`: the pipeline never inspects the value a
  square root returns, so every property proved below holds for an
  arbitrary `sq`, in particular for the true square root.
-/

namespace UkraineInflation

/-- A cell of the input table: `none` models a missing value (NaN). -/
abbrev Cell := Option ℚ

/-- A column of the input table: an ordered list of cells. -/
abbrev Column := List Cell

/-- The name of the target column extracted by the script. -/
def targetColumn : String := "UA"

/-- Models pandas `dropna` (line 42, `df['UA'].dropna()`): remove the missing
cells of a column, preserving the relative order of the rest. -/
def dropna (c : Column) : Column := c.filter (fun x => x.isSome)

/-- The numeric values of a column, in order, missing cells skipped. -/
def vals (c : Column) : List ℚ := c.filterMap id

/-- The extracted Ukraine series as a numeric list: the values of the column
after dropping missing cells (`ua_ts`, line 42). -/
def uaSeries (c : Column) : List ℚ := vals (dropna c)

/-- Arithmetic mean of a list of rationals (division by zero yields 0 on the
empty list, which is guarded everywhere this is used). -/
def meanQ (s : List ℚ) : ℚ := s.sum / s.length

/-- Models pandas `Series.mean()` (line 62): NaN on an empty series, otherwise
the arithmetic mean. -/
def meanOf (s : List ℚ) : Option ℚ :=
  if s.isEmpty then none else some (meanQ s)

/-- Models pandas `Series.median()` (line 63): NaN on an empty series;
otherwise sort the values and take the middle element (odd length) or the
average of the two middle elements (even length). -/
def medianOf (s : List ℚ) : Option ℚ :=
  if s.isEmpty then none else
    some (
      let L := List.insertionSort (· ≤ ·) s
      let n := s.length
      if n % 2 = 1 then L.getD (n / 2) 0
      else (L.getD (n / 2 - 1) 0 + L.getD (n / 2) 0) / 2)

/-- Models pandas sample variance with `ddof = 1` (the square of `.std()`,
line 64), in the running-sums computational form pandas uses: NaN (`none`)
when there are fewer than two observations — in particular on a series of
length one — otherwise `(Σ x² − (Σ x)² / n) / (n − 1)`. -/
def varOf (s : List ℚ) : Option ℚ :=
  if s.length < 2 then none
  else some (((s.map (fun x => x ^ 2)).sum - s.sum ^ 2 / (s.length : ℚ)) /
    ((s.length : ℚ) - 1))

/-- Models pandas `Series.std()` (line 64): the square root of the sample
variance, through the abstract square root `sq`; NaN stays NaN. -/
def stdOf (sq : ℚ → ℚ) (s : List ℚ) : Option ℚ := (varOf s).map sq

/-- Models pandas `Series.min()` (line 65). -/
def minOf : List ℚ → Option ℚ
  | [] => none
  | x :: xs => some (xs.foldl min x)

/-- Models pandas `Series.max()` (line 66). -/
def maxOf : List ℚ → Option ℚ
  | [] => none
  | x :: xs => some (xs.foldl max x)

/-- Models the range as the script computes it, `max_value - min_value`
(lines 73 and 202): NaN when the series is empty. -/
def rangeOf (s : List ℚ) : Option ℚ :=
  (maxOf s).bind (fun mx => (minOf s).map (fun mn => mx - mn))

/-- The closed trailing window of width `w` ending at position `i`:
the elements of `s` at indices `i + 1 - w` through `i`. -/
def windowAt (s : List ℚ) (w i : ℕ) : List ℚ :=
  (s.take (i + 1)).drop (i + 1 - w)

/-- Models pandas `Series.rolling(window=w).mean()` (line 85): position `i`
is NaN while fewer than `w` observations have been seen (`i + 1 < w`),
otherwise the mean of the closed trailing window of width `w`. -/
def rollingMean (s : List ℚ) (w : ℕ) : List (Option ℚ) :=
  (List.range s.length).map
    (fun i => if i + 1 < w then none else some (meanQ (windowAt s w i)))

/-- The squared version of pandas `Series.rolling(window=w).std()` (line 88):
position `i` is NaN while fewer than `w` observations have been seen,
otherwise the sample variance of the closed trailing window. -/
def rollingVar (s : List ℚ) (w : ℕ) : List (Option ℚ) :=
  (List.range s.length).map
    (fun i => if i + 1 < w then none else varOf (windowAt s w i))

/-- Models pandas `Series.rolling(window=w).std()` (line 88): the square root
of the rolling sample variance, position by position, NaN staying NaN. -/
def rollingStd (sq : ℚ → ℚ) (s : List ℚ) (w : ℕ) : List (Option ℚ) :=
  (rollingVar s w).map (Option.map sq)

/-- Models pandas `Series.mean()` applied to a series that may contain NaN
(lines 91, 96, 202-203): the mean of the defined entries, NaN when every
entry is missing. -/
def nanmeanOf (l : List (Option ℚ)) : Option ℚ := meanOf (l.filterMap id)

/-- Models `summary_df` (lines 198-204): the nine (Statistic, Value) rows, in
the order the script lists them; a Value of `none` models NaN. The
Observations value is the integer `len(ua_ts)` carried as a rational, since
the pandas Value column is numeric. -/
def summaryRows (sq : ℚ → ℚ) (s : List ℚ) : List (String × Option ℚ) :=
  [("Mean", meanOf s),
   ("Median", medianOf s),
   ("Std Dev", stdOf sq s),
   ("Min", minOf s),
   ("Max", maxOf s),
   ("Range", rangeOf s),
   ("Avg Rolling Mean (12m)", nanmeanOf (rollingMean s 12)),
   ("Avg Rolling Vol (12m)", nanmeanOf (rollingStd sq s 12)),
   ("Observations", some ((s.length : ℚ)))]

/-- Models `export_df` (lines 211-215): the three named columns of the
exported time-series table, each one cell per retained observation; a cell of
`none` models NaN, written out as the not-available sentinel. -/
def exportCols (sq : ℚ → ℚ) (s : List ℚ) : List (String × List (Option ℚ)) :=
  [("Inflation", s.map some),
   ("Rolling_Mean_12m", rollingMean s 12),
   ("Rolling_Volatility_12m", rollingStd sq s 12)]

/-- The loaded table: an ordered list of named columns (`df`, line 26). -/
structure Table where
  cols : List (String × Column)
deriving DecidableEq

/-- The column identifiers of a table, in order (`df.columns.tolist()`). -/
def availableColumns (t : Table) : List String := t.cols.map Prod.fst

/-- Look a column up by name (`df['UA']` guarded by `'UA' in df.columns`). -/
def getCol (t : Table) (name : String) : Option Column :=
  (t.cols.find? (fun p => p.1 == name)).map Prod.snd

/-- The outcome of Section 2 of the script. `extracted s` means the Ukraine
series `s` was extracted and the pipeline continues; `halted d k` means the
run printed the diagnostic `d` (the available column identifiers) and the
process terminated with exit status `k`, producing nothing further. -/
inductive ExtractOutcome where
  | extracted (series : Column) : ExtractOutcome
  | halted (diagnostic : List String) (exitCode : ℕ) : ExtractOutcome
deriving DecidableEq

/-- Models lines 41-49: if the target column is present, extract it with
missing values dropped; otherwise print the available column identifiers and
call Python `exit()`. An argumentless `exit()` raises `SystemExit(None)`,
which terminates the process with exit status 0, so the halting branch
carries exit code 0. -/
def extractUA (t : Table) : ExtractOutcome :=
  match getCol t targetColumn with
  | some c => .extracted (dropna c)
  | none => .halted (availableColumns t) 0

/-! ## Spec-side definitions

These follow the wording of the specification ("the arithmetic mean of
`S[i-w+1..i]`", "sample standard deviation with denominator `w - 1` over
that same closed trailing window") rather than the source, to be compared
against the code-side rolling definitions above. -/

/-- Following the spec's words: the closed index window `S[i-w+1..i]`, read
off element by element (for `i ≥ w - 1` the first index `i - w + 1` equals
`i + 1 - w`, which also covers the natural-subtraction corner). -/
def specSlice (s : List ℚ) (w i : ℕ) : List ℚ :=
  (List.range w).map (fun j => s.getD (i + 1 - w + j) 0)

/-- Following the spec's words: the arithmetic mean of `S[i-w+1..i]`. -/
def specWindowMean (s : List ℚ) (w i : ℕ) : ℚ :=
  (specSlice s w i).sum / (w : ℚ)

/-- Following the spec's words: the sample variance, denominator `w - 1`,
of `S[i-w+1..i]` about its arithmetic mean. The spec's sample standard
deviation is the square root of this quantity. -/
def specWindowVar (s : List ℚ) (w i : ℕ) : ℚ :=
  ((specSlice s w i).map (fun x => (x - specWindowMean s w i) ^ 2)).sum /
    ((w : ℚ) - 1)

/-! ## Concrete inputs used by witnesses and counterexamples -/

/-- The spec's scenario input: the 24 monthly values 1.0, 2.0, ..., 24.0. -/
def testSeries : List ℚ :=
  [1, 2, 3, 4, 5, 6, 7, 8, 9, 10, 11, 12,
   13, 14, 15, 16, 17, 18, 19, 20, 21, 22, 23, 24]

/-- A one-column table whose column UA carries the scenario values with no
missing entries. -/
def scenarioTable : Table := ⟨[("UA", testSeries.map some)]⟩

/-- A table that lacks the target column UA (its single column is XX). -/
def missingTable : Table := ⟨[("XX", [some 1, none, some 2])]⟩

/-- A column with one missing entry among three cells. -/
def obsColumn : Column := [some 1, none, some 2]

/-- A table carrying `obsColumn` under the target name UA. -/
def obsTable : Table := ⟨[("UA", obsColumn)]⟩

/-! ## Helper lemmas -/

/-- When at least `w` observations precede position `i` (inclusive), the
trailing window at `i` has exactly `w` elements. -/
theorem length_windowAt (s : List ℚ) (w i : ℕ) (hwi : w ≤ i + 1)
    (hi : i < s.length) : (windowAt s w i).length = w := by
  simp only [windowAt, List.length_drop, List.length_take]
  omega

/-- The code-side trailing window is exactly the spec-side index slice. -/
theorem windowAt_eq_slice (s : List ℚ) (w i : ℕ) (hwi : w ≤ i + 1)
    (hi : i < s.length) : windowAt s w i = specSlice s w i := by
  apply List.ext_getElem?
  intro j
  rw [specSlice]
  by_cases hj : j < w
  · rw [List.getElem?_map, List.getElem?_range hj]
    rw [windowAt, List.getElem?_drop, List.getElem?_take]
    have h1 : i + 1 - w + j < i + 1 := by omega
    rw [if_pos h1]
    have h2 : i + 1 - w + j < s.length := by omega
    simp [List.getD_eq_getElem?_getD, List.getElem?_eq_getElem h2]
  · have h1 : (windowAt s w i).length ≤ j := by
      rw [length_windowAt s w i hwi hi]; omega
    rw [List.getElem?_eq_none h1, List.getElem?_map,
      List.getElem?_eq_none (by simpa using hj)]
    rfl

/-- Expansion of a sum of squared deviations about an arbitrary center. -/
theorem sum_sq_sub_const (l : List ℚ) (c : ℚ) :
    (l.map (fun x => (x - c) ^ 2)).sum
      = (l.map (fun x => x ^ 2)).sum - 2 * c * l.sum + l.length * c ^ 2 := by
  induction l with
  | nil => simp
  | cons x xs ih =>
    simp only [List.map_cons, List.sum_cons, ih, List.length_cons]
    push_cast
    ring

/-- The running-sums form of the sample variance used by the code agrees
with the textbook sum-of-squared-deviations form, once at least two
observations are present. -/
theorem varOf_eq_spec_form (l : List ℚ) (h2 : 2 ≤ l.length) :
    varOf l
      = some ((l.map (fun x => (x - meanQ l) ^ 2)).sum / ((l.length : ℚ) - 1)) := by
  have hn : (l.length : ℚ) ≠ 0 := Nat.cast_ne_zero.mpr (by omega)
  have h2q : (2 : ℚ) ≤ (l.length : ℚ) := by exact_mod_cast h2
  have hn1 : (l.length : ℚ) - 1 ≠ 0 := by linarith
  rw [varOf, if_neg (by omega), sum_sq_sub_const, meanQ]
  simp only [Option.some.injEq]
  congr 1
  field_simp
  ring

/-- Position `i` of the rolling mean, read off the produced sequence. -/
theorem rollingMean_getElem? (s : List ℚ) (w i : ℕ) (hi : i < s.length) :
    (rollingMean s w)[i]?
      = some (if i + 1 < w then none else some (meanQ (windowAt s w i))) := by
  rw [rollingMean, List.getElem?_map, List.getElem?_range hi]
  rfl

/-- Position `i` of the rolling sample variance. -/
theorem rollingVar_getElem? (s : List ℚ) (w i : ℕ) (hi : i < s.length) :
    (rollingVar s w)[i]?
      = some (if i + 1 < w then none else varOf (windowAt s w i)) := by
  rw [rollingVar, List.getElem?_map, List.getElem?_range hi]
  rfl

/-- Position `i` of the rolling standard deviation. -/
theorem rollingStd_getElem? (sq : ℚ → ℚ) (s : List ℚ) (w i : ℕ)
    (hi : i < s.length) :
    (rollingStd sq s w)[i]?
      = some (if i + 1 < w then none else (varOf (windowAt s w i)).map sq) := by
  rw [rollingStd, List.getElem?_map, rollingVar_getElem? s w i hi]
  by_cases h : i + 1 < w <;> simp [h]

/-- The mean of a spec-side slice is the spec-side window mean. -/
theorem meanQ_specSlice (s : List ℚ) (w i : ℕ) :
    meanQ (specSlice s w i) = specWindowMean s w i := by
  rw [meanQ, specWindowMean]
  have : (specSlice s w i).length = w := by simp [specSlice]
  rw [this]

/-- The mean of the code-side trailing window is the spec-side window mean. -/
theorem meanQ_windowAt (s : List ℚ) (w i : ℕ) (hwi : w ≤ i + 1)
    (hi : i < s.length) : meanQ (windowAt s w i) = specWindowMean s w i := by
  rw [windowAt_eq_slice s w i hwi hi, meanQ_specSlice]

/-- The sample variance of the code-side trailing window of width 12 is the
spec-side window sample variance. -/
theorem varOf_windowAt (s : List ℚ) (i : ℕ) (hwi : 12 ≤ i + 1)
    (hi : i < s.length) : varOf (windowAt s 12 i) = some (specWindowVar s 12 i) := by
  have hlen : (windowAt s 12 i).length = 12 := length_windowAt s 12 i hwi hi
  rw [varOf_eq_spec_form _ (by omega), hlen]
  rw [windowAt_eq_slice s 12 i hwi hi, meanQ_specSlice, specWindowVar]

/-- The median computed by sorting equals the central formula on any sorted
permutation of the series. -/
theorem medianOf_eq_sorted (s L : List ℚ) (hne : s ≠ []) (hp : s.Perm L)
    (hs : L.Sorted (· ≤ ·)) :
    medianOf s = some (if s.length % 2 = 1 then L.getD (s.length / 2) 0
      else (L.getD (s.length / 2 - 1) 0 + L.getD (s.length / 2) 0) / 2) := by
  have hins : List.insertionSort (· ≤ ·) s = L :=
    List.eq_of_perm_of_sorted ((List.perm_insertionSort _ s).trans hp)
      (List.sorted_insertionSort _ s) hs
  have h0 : s.isEmpty = false := by simpa using hne
  simp only [medianOf, h0, Bool.false_eq_true, if_false]
  rw [hins]

/-- The length of the extracted series equals the number of present cells. -/
theorem length_vals_dropna (c : Column) :
    (uaSeries c).length = c.countP (fun x => x.isSome) := by
  rw [List.countP_eq_length_filter]
  rw [uaSeries, vals, dropna]
  induction c with
  | nil => rfl
  | cons x xs ih =>
    cases x <;> simp [List.filter_cons, ih]

/-! ## Claim theorems -/

/-- C1: for every series with at least 12 observations, the 12-month rolling
mean and rolling standard deviation are undefined (NaN, here `none`) at every
position `i < 11`, and at every position `i ≥ 11` the rolling mean equals the
arithmetic mean of the closed trailing window `S[i-11..i]` while the rolling
standard deviation equals the sample standard deviation over that window:
its square, the rolling sample variance, equals the spec-side sample
variance with denominator 11, and the standard deviation itself is the
square root `sq` of that same quantity, for every choice of `sq`. -/
theorem rolling_stats_match_spec (sq : ℚ → ℚ) (s : List ℚ) (i : ℕ)
    (_hw : 12 ≤ s.length) (hi : i < s.length) :
    (i < 11 →
      (rollingMean s 12)[i]? = some none ∧ (rollingStd sq s 12)[i]? = some none)
    ∧ (11 ≤ i →
      (rollingMean s 12)[i]? = some (some (specWindowMean s 12 i))
      ∧ (rollingVar s 12)[i]? = some (some (specWindowVar s 12 i))
      ∧ (rollingStd sq s 12)[i]? = some (some (sq (specWindowVar s 12 i)))) := by
  constructor
  · intro h11
    rw [rollingMean_getElem? s 12 i hi, rollingStd_getElem? sq s 12 i hi]
    rw [if_pos (by omega), if_pos (by omega)]
    exact ⟨rfl, rfl⟩
  · intro h11
    have hwi : 12 ≤ i + 1 := by omega
    rw [rollingMean_getElem? s 12 i hi, rollingVar_getElem? s 12 i hi,
      rollingStd_getElem? sq s 12 i hi]
    rw [if_neg (by omega), if_neg (by omega), if_neg (by omega)]
    rw [meanQ_windowAt s 12 i hwi hi, varOf_windowAt s i hwi hi]
    exact ⟨rfl, rfl, rfl⟩

/-- Witness for C1: on the series 1..24, the rolling mean at position 11 is
the spec-side window mean and the rolling standard deviation at position 5 is
undefined. -/
theorem rolling_stats_match_spec_witness :
    (rollingMean testSeries 12)[11]? = some (some (specWindowMean testSeries 12 11))
    ∧ (rollingStd (fun q => q) testSeries 12)[5]? = some none := by
  constructor
  · exact ((rolling_stats_match_spec (fun q => q) testSeries 11
      (by norm_num [testSeries]) (by norm_num [testSeries])).2 (by norm_num)).1
  · exact ((rolling_stats_match_spec (fun q => q) testSeries 5
      (by norm_num [testSeries]) (by norm_num [testSeries])).1 (by norm_num)).2

/-- C2 counterexample: on a concrete table lacking the column UA, the run
does halt, but no non-zero exit status is produced — the script reaches the
missing-column branch and calls the argumentless Python `exit()`, which
terminates with status 0. So the claim's non-zero-outcome part is false. -/
theorem missing_column_nonzero_exit_refuted :
    ¬ (∃ d k, extractUA missingTable = .halted d k ∧ k ≠ 0) := by
  rintro ⟨d, k, h, hk⟩
  have h0 : extractUA missingTable = .halted ["XX"] 0 := rfl
  rw [h0] at h
  injection h with h1 h2
  exact hk h2.symm

/-- C2 (amended): for every table lacking the column UA, extraction yields no
series, the pipeline halts immediately (no partial results), the diagnostic
lists the actual available column identifiers — but the run terminates with
exit status 0, not a non-zero outcome. -/
theorem missing_column_halts (t : Table) (h : getCol t targetColumn = none) :
    extractUA t = .halted (availableColumns t) 0 := by
  rw [extractUA, h]

/-- Witness for the amended C2 at the concrete UA-less table. -/
theorem missing_column_halts_witness :
    extractUA missingTable = .halted (availableColumns missingTable) 0 :=
  missing_column_halts missingTable rfl

/-- C3 counterexample: the seventh Statistic label written by the code is
"Avg Rolling Mean (12m)", not the claimed bare "Avg Rolling Mean", so
the claimed label list differs from the exported one. -/
theorem summary_labels_plain_refuted :
    ¬ ((summaryRows (fun q => q) testSeries).map Prod.fst =
      ["Mean", "Median", "Std Dev", "Min", "Max", "Range",
       "Avg Rolling Mean", "Avg Rolling Vol", "Observations"]) := by
  intro h
  have h7 := congrArg (fun l => l[6]?) h
  simp [summaryRows] at h7

/-- C3 (amended): the exported summary table has exactly nine rows whose
Statistic labels are, in order, Mean, Median, Std Dev, Min, Max, Range,
"Avg Rolling Mean (12m)", "Avg Rolling Vol (12m)", Observations, and the
Value of the seventh (resp. eighth) row is the arithmetic mean of the
rolling mean (resp. rolling standard deviation) sequence computed over its
defined entries only. -/
theorem summary_table_shape (sq : ℚ → ℚ) (s : List ℚ) :
    (summaryRows sq s).length = 9
    ∧ (summaryRows sq s).map Prod.fst =
      ["Mean", "Median", "Std Dev", "Min", "Max", "Range",
       "Avg Rolling Mean (12m)", "Avg Rolling Vol (12m)", "Observations"]
    ∧ (summaryRows sq s)[6]? =
      some ("Avg Rolling Mean (12m)", meanOf ((rollingMean s 12).filterMap id))
    ∧ (summaryRows sq s)[7]? =
      some ("Avg Rolling Vol (12m)", meanOf ((rollingStd sq s 12).filterMap id)) :=
  ⟨rfl, rfl, rfl, rfl⟩

/-- C4: the exported time-series table has exactly the three columns
Inflation, Rolling_Mean_12m and Rolling_Volatility_12m, each with one cell
per retained observation, and every rolling cell at an undefined position
(`i + 1 < 12`) is the not-available sentinel `none` — never the number 0. -/
theorem export_table_shape (sq : ℚ → ℚ) (s : List ℚ) :
    ((exportCols sq s).map Prod.fst =
      ["Inflation", "Rolling_Mean_12m", "Rolling_Volatility_12m"])
    ∧ (∀ p ∈ exportCols sq s, p.2.length = s.length)
    ∧ (∀ i, i < s.length → i + 1 < 12 →
      (rollingMean s 12)[i]? = some none ∧ (rollingStd sq s 12)[i]? = some none) := by
  refine ⟨rfl, ?_, ?_⟩
  · intro p hp
    rw [exportCols] at hp
    simp only [List.mem_cons, List.not_mem_nil, or_false] at hp
    rcases hp with h | h | h <;> subst h <;>
      simp [rollingMean, rollingVar, rollingStd]
  · intro i hi h12
    rw [rollingMean_getElem? s 12 i hi, rollingStd_getElem? sq s 12 i hi,
      if_pos h12, if_pos h12]
    exact ⟨rfl, rfl⟩

/-- Witness for C4: the column names on the series 1..24, and the sentinel at
position 3 of the rolling-mean column. -/
theorem export_table_shape_witness :
    ((exportCols (fun q => q) testSeries).map Prod.fst =
      ["Inflation", "Rolling_Mean_12m", "Rolling_Volatility_12m"])
    ∧ (rollingMean testSeries 12)[3]? = some none := by
  refine ⟨(export_table_shape (fun q => q) testSeries).1, ?_⟩
  exact ((export_table_shape (fun q => q) testSeries).2.2 3
    (by norm_num [testSeries]) (by norm_num)).1

/-- C5: on every series of length exactly 1 the descriptive standard
deviation is undefined (`none`, modelling NaN): the computation is total, so
no error is raised, and the result is not the number 0. -/
theorem std_of_single_observation (sq : ℚ → ℚ) (s : List ℚ)
    (h : s.length = 1) : stdOf sq s = none ∧ stdOf sq s ≠ some 0 := by
  have h1 : stdOf sq s = none := by
    rw [stdOf, varOf, if_pos (by omega)]
    rfl
  refine ⟨h1, ?_⟩
  rw [h1]
  exact fun hc => Option.noConfusion hc

/-- Witness for C5 at the one-element series. -/
theorem std_of_single_observation_witness :
    stdOf (fun q => q) [(5 : ℚ)] = none
    ∧ stdOf (fun q => q) [(5 : ℚ)] ≠ some 0 :=
  std_of_single_observation (fun q => q) [(5 : ℚ)] rfl

/-- C6: for every non-empty series, the median equals the single central
element of any sorted rearrangement when the length is odd, and the average
of its two central elements when the length is even. -/
theorem median_sorted_middle (s L : List ℚ) (hne : s ≠ []) (hp : s.Perm L)
    (hs : L.Sorted (· ≤ ·)) :
    medianOf s = some (if s.length % 2 = 1 then L.getD (s.length / 2) 0
      else (L.getD (s.length / 2 - 1) 0 + L.getD (s.length / 2) 0) / 2) :=
  medianOf_eq_sorted s L hne hp hs

/-- Witness for C6: the median of the unsorted three-element series 2, 1, 3
is the central element 2 of its sorted rearrangement. -/
theorem median_sorted_middle_witness : medianOf [(2 : ℚ), 1, 3] = some 2 := by
  have h := median_sorted_middle [(2 : ℚ), 1, 3] [(1 : ℚ), 2, 3] (by simp)
    (List.Perm.swap 1 2 [3]) (by norm_num [List.sorted_cons])
  norm_num at h
  exact h

/-- C7: on the scenario table whose UA column holds 1.0 .. 24.0 with no
missing entries, extraction retains all 24 values, the mean and median are
both 12.5, the range is 23.0, the rolling mean at index 11 is 6.5 (the mean
of 1..12), and the rolling mean is undefined at every index 0 through 10. -/
theorem scenario_one_to_twentyfour :
    extractUA scenarioTable = .extracted (testSeries.map some)
    ∧ uaSeries (testSeries.map some) = testSeries
    ∧ meanOf testSeries = some (25 / 2)
    ∧ medianOf testSeries = some (25 / 2)
    ∧ rangeOf testSeries = some 23
    ∧ (rollingMean testSeries 12)[11]? = some (some (13 / 2))
    ∧ (rollingMean testSeries 12).take 11 = List.replicate 11 none := by
  refine ⟨rfl, by simp [uaSeries, vals, dropna, testSeries], ?_, ?_, ?_, ?_, ?_⟩
  · norm_num [meanOf, meanQ, testSeries]
  · rw [medianOf_eq_sorted testSeries testSeries (by simp [testSeries])
      (List.Perm.refl _) (by norm_num [testSeries, List.sorted_cons])]
    norm_num [testSeries]
  · have h1 : maxOf testSeries = some 24 := by norm_num [maxOf, testSeries]
    have h2 : minOf testSeries = some 1 := by norm_num [minOf, testSeries]
    simp [rangeOf, h1, h2]
    norm_num
  · rw [rollingMean_getElem? testSeries 12 11 (by norm_num [testSeries])]
    norm_num [meanQ, windowAt, testSeries]
  · apply List.ext_getElem?
    intro j
    by_cases hj : j < 11
    · rw [List.getElem?_take, if_pos hj,
        rollingMean_getElem? testSeries 12 j (by norm_num [testSeries]; omega),
        if_pos (by omega), List.getElem?_replicate, if_pos hj]
    · rw [List.getElem?_eq_none
        (by simp [List.length_take, rollingMean, testSeries]; omega),
        List.getElem?_eq_none (by simpa using hj)]

/-- C8: whenever the code's max and min of the series are `mx` and `mn`
(which is the case exactly when the series is non-empty), the range it
computes and exports in the Range row is exactly `mx - mn`. -/
theorem range_eq_max_sub_min (sq : ℚ → ℚ) (s : List ℚ) (mx mn : ℚ)
    (hmx : maxOf s = some mx) (hmn : minOf s = some mn) :
    rangeOf s = some (mx - mn)
    ∧ (summaryRows sq s)[5]? = some ("Range", some (mx - mn)) := by
  have h1 : rangeOf s = some (mx - mn) := by
    rw [rangeOf, hmx, hmn]
    rfl
  refine ⟨h1, ?_⟩
  have h2 : (summaryRows sq s)[5]? = some ("Range", rangeOf s) := rfl
  rw [h2, h1]

/-- Witness for C8 on the two-element series 4, 1. -/
theorem range_eq_max_sub_min_witness :
    rangeOf [(4 : ℚ), 1] = some (4 - 1)
    ∧ (summaryRows (fun q => q) [(4 : ℚ), 1])[5]? =
      some ("Range", some (4 - 1)) :=
  range_eq_max_sub_min (fun q => q) [(4 : ℚ), 1] 4 1
    (by norm_num [maxOf]) (by norm_num [minOf])

/-- C9: dropping missing values is idempotent — extracting twice from the
same column yields a series identical to extracting once. -/
theorem dropna_idempotent (c : Column) : dropna (dropna c) = dropna c := by
  rw [dropna, dropna, List.filter_filter]
  simp

/-- C10: for every table containing the column UA, the pipeline extracts the
column with missing values dropped, the Observations row of the summary is
the ninth row and its Value is the length of the extracted series, and that
length is the count of non-missing cells of the column. -/
theorem observations_row (sq : ℚ → ℚ) (t : Table) (c : Column)
    (h : getCol t targetColumn = some c) :
    extractUA t = .extracted (dropna c)
    ∧ (summaryRows sq (uaSeries c))[8]? =
      some ("Observations", some (((uaSeries c).length : ℚ)))
    ∧ (uaSeries c).length = c.countP (fun x => x.isSome) := by
  refine ⟨?_, rfl, length_vals_dropna c⟩
  rw [extractUA, h]

/-- Witness for C10 at a concrete table whose UA column has one missing cell
among three. -/
theorem observations_row_witness :
    extractUA obsTable = .extracted (dropna obsColumn)
    ∧ (summaryRows (fun q => q) (uaSeries obsColumn))[8]? =
      some ("Observations", some (((uaSeries obsColumn).length : ℚ)))
    ∧ (uaSeries obsColumn).length = obsColumn.countP (fun x => x.isSome) :=
  observations_row (fun q => q) obsTable obsColumn rfl

end UkraineInflation
